import Mathlib

set_option maxRecDepth 8192

/-!
Verification of the sendgrid-rs client library (V2 mail path).

The data model and the builder operations are shallow embeddings of
`src/mail.rs`, `src/sg_client.rs` and `src/errors.rs`:

* `Destination`, `Mail` mirror the Rust structs field by field;
  `HashMap` fields are embedded as association lists with Rust
  `HashMap::insert` semantics (`insertMap` replaces the value of an
  existing key).
* The builder setters (`Mail.new`, `add_to`, `add_cc`, `add_bcc`,
  `add_html`, `add_text`, `add_reply_to`, `add_date`, `add_content`,
  `add_header`, `add_x_smtpapi`, `build`, `add_attachment`,
  `make_header_string`) follow the `add_field!` macro expansions and the
  handwritten methods in `mail.rs`.  The fatal `assert!` in `build` is
  embedded as `Option Mail` (`none` = the assertion fires).
* `add_attachment` takes the filesystem as an explicit parameter
  (`SysPath → Except String String`): an `error` result stands for any
  `std::io::Error` from `File::open` / `read_to_string`, an `ok` result
  is the full text content read.  `SysPath.toStr` models
  `Path::to_str`, which is `none` exactly when the path is not valid
  UTF-8.
* `SGClient.send` follows `sg_client.rs`: serialize the mail, POST it,
  read the response body, propagating each failure unchanged via `?`.
  The serializer and the HTTP transport are external collaborators and
  are passed as explicit parameters.
-/

/-- Error taxonomy of `src/errors.rs`: the `error_chain!` foreign links
`Io`, `JSONDecode`, `ReqwestError`, `FormEncode` plus the custom kind
`InvalidFilename`.  The payload of a foreign link is abstracted to the
message string of the underlying error. -/
inductive SendgridError where
  | io (msg : String)
  | jsonDecode (msg : String)
  | reqwestError (msg : String)
  | formEncode (msg : String)
  | invalidFilename
deriving DecidableEq, Repr

/-- `Destination` of `mail.rs`: an address together with a display name. -/
structure Destination where
  address : String
  name : String
deriving DecidableEq, Repr

/-- Association-list embedding of `std::collections::HashMap` insertion:
`insert` replaces the value when the key is already present, otherwise
the entry is appended. -/
def insertMap (l : List (String × String)) (k v : String) : List (String × String) :=
  match l with
  | [] => [(k, v)]
  | (k0, v0) :: rest => if k0 = k then (k, v) :: rest else (k0, v0) :: insertMap rest k v

/-- `HashMap::get` on the association-list embedding. -/
def lookupMap (l : List (String × String)) (k : String) : Option String :=
  match l with
  | [] => none
  | (k0, v0) :: rest => if k0 = k then some v0 else lookupMap rest k

/-- Number of entries stored under key `k`. -/
def countKey (l : List (String × String)) (k : String) : Nat :=
  (l.filter (fun p => p.1 == k)).length

/-- The `Mail` struct of `mail.rs`, field for field and in declaration
order.  `Vec<&str>` becomes `List String`, `Option<&str>` becomes
`Option String`, and the three `HashMap`s become association lists. -/
structure Mail where
  «to» : List String
  toname : List String
  cc : List String
  ccname : List String
  bcc : List String
  bccname : List String
  «from» : String
  fromname : String
  subject : String
  html : Option String
  text : Option String
  replyto : Option String
  date : Option String
  attachments : List (String × String)
  content : List (String × String)
  headers : List (String × String)
  x_smtpapi : Option String
deriving DecidableEq, Repr

/-- `Mail::new`: one initial `to` recipient, the required `subject` and
`from`; every other field empty or absent. -/
def Mail.new («to» : Destination) (subject : String) (fromDest : Destination) : Mail :=
  { «to» := [«to».address]
    toname := [«to».name]
    cc := []
    ccname := []
    bcc := []
    bccname := []
    «from» := fromDest.address
    fromname := fromDest.name
    subject := subject
    html := none
    text := none
    replyto := none
    date := none
    attachments := []
    content := []
    headers := []
    x_smtpapi := none }

/-- `add_field!(add_to << to, toname)`: push the address and the name
onto the two parallel vectors. -/
def Mail.add_to (m : Mail) (data : Destination) : Mail :=
  { m with «to» := m.«to» ++ [data.address], toname := m.toname ++ [data.name] }

/-- `add_field!(add_cc << cc, ccname)`. -/
def Mail.add_cc (m : Mail) (data : Destination) : Mail :=
  { m with cc := m.cc ++ [data.address], ccname := m.ccname ++ [data.name] }

/-- `add_field!(add_bcc << bcc, bccname)`. -/
def Mail.add_bcc (m : Mail) (data : Destination) : Mail :=
  { m with bcc := m.bcc ++ [data.address], bccname := m.bccname ++ [data.name] }

/-- `add_field!(add_html = html)`: store the HTML body. -/
def Mail.add_html (m : Mail) (data : String) : Mail :=
  { m with html := some data }

/-- `add_field!(add_text = text)`: store the text body. -/
def Mail.add_text (m : Mail) (data : String) : Mail :=
  { m with text := some data }

/-- `add_field!(add_reply_to = replyto)`. -/
def Mail.add_reply_to (m : Mail) (data : String) : Mail :=
  { m with replyto := some data }

/-- `add_field!(add_date = date)`. -/
def Mail.add_date (m : Mail) (data : String) : Mail :=
  { m with date := some data }

/-- `add_field!(add_content <- content)`: `HashMap` insert. -/
def Mail.add_content (m : Mail) (id : String) (data : String) : Mail :=
  { m with content := insertMap m.content id data }

/-- `add_field!(add_header <- headers)`: `HashMap` insert. -/
def Mail.add_header (m : Mail) (id : String) (data : String) : Mail :=
  { m with headers := insertMap m.headers id data }

/-- `add_field!(add_x_smtpapi = x_smtpapi)`. -/
def Mail.add_x_smtpapi (m : Mail) (data : String) : Mail :=
  { m with x_smtpapi := some data }

/-- `Mail::build`: `assert!(self.text.is_some() || self.html.is_some())`
then return `self`.  `none` models the fatal assertion firing. -/
def Mail.build (m : Mail) : Option Mail :=
  if m.text.isSome || m.html.isSome then some m else none

/-- A filesystem path as `add_attachment` observes it: `toStr` is
`Path::to_str` (`some` exactly when the OS path bytes are valid UTF-8),
`raw` keeps the OS byte representation so that distinct non-UTF-8 paths
stay distinct. -/
structure SysPath where
  raw : List Nat
  toStr : Option String
deriving DecidableEq, Repr

/-- `Mail::add_attachment`, with the filesystem explicit: `fs p` is the
combined result of `File::open` and `read_to_string` (`error msg` for an
`io::Error`, `ok data` for the full text content).  On success the
content is stored under the UTF-8 string of the path; a non-UTF-8 path
yields `InvalidFilename`.  The open/read happens before the filename
check, exactly as in the source. -/
def Mail.add_attachment (m : Mail) (fs : SysPath → Except String String)
    (path : SysPath) : Except SendgridError Mail :=
  match fs path with
  | .error e => .error (.io e)
  | .ok data =>
    match path.toStr with
    | some name => .ok { m with attachments := insertMap m.attachments name data }
    | none => .error .invalidFilename

/-- Hex digit (uppercase) used by percent-encoding. -/
def hexDigitChar (n : Nat) : Char :=
  if n < 10 then Char.ofNat (48 + n) else Char.ofNat (55 + n)

/-- UTF-8 byte sequence of a character. -/
def utf8Bytes (c : Char) : List Nat :=
  let n := c.toNat
  if n < 128 then [n]
  else if n < 2048 then [192 + n / 64, 128 + n % 64]
  else if n < 65536 then [224 + n / 4096, 128 + (n / 64) % 64, 128 + n % 64]
  else [240 + n / 262144, 128 + (n / 4096) % 64, 128 + (n / 64) % 64, 128 + n % 64]

/-- `%HH` encoding of one byte. -/
def percentByte (b : Nat) : String :=
  String.mk ['%', hexDigitChar (b / 16), hexDigitChar (b % 16)]

/-- Bytes kept verbatim by `application/x-www-form-urlencoded`
serialization: ASCII alphanumerics and `*-._`. -/
def isUnreservedChar (c : Char) : Bool :=
  (c.isAlpha && c.toNat < 128) || c.isDigit || c = '*' || c = '-' || c = '.' || c = '_'

/-- Modelled from the spec: the per-character rule of the generic
form-urlencoded serializer (an external crate, not part of src/):
unreserved bytes verbatim, space as `+`, every other byte
percent-encoded over its UTF-8 bytes. -/
def urlencodeChar (c : Char) : String :=
  if isUnreservedChar c then String.singleton c
  else if c = ' ' then "+"
  else String.join ((utf8Bytes c).map percentByte)

/-- Form-urlencoding of a whole string. -/
def urlencode (s : String) : String :=
  String.join (s.data.map urlencodeChar)

/-- JSON string-body escaping as the JSON serializer performs it on
header names and values. -/
def jsonEscapeChar (c : Char) : String :=
  if c = '"' then "\\\""
  else if c = '\\' then "\\\\"
  else if c = '\n' then "\\n"
  else if c = '\r' then "\\r"
  else if c = '\t' then "\\t"
  else if c.toNat < 32 then "\\u00" ++ String.mk [hexDigitChar (c.toNat / 16), hexDigitChar (c.toNat % 16)]
  else String.singleton c

/-- A JSON string literal. -/
def jsonStringLit (s : String) : String :=
  "\"" ++ String.join (s.data.map jsonEscapeChar) ++ "\""

/-- Compact JSON object for a string-to-string map, in iteration order
of the association list. -/
def jsonOfMap (l : List (String × String)) : String :=
  "\x7b" ++ String.intercalate "," (l.map (fun p => jsonStringLit p.1 ++ ":" ++ jsonStringLit p.2)) ++ "\x7d"

/-- `Mail::make_header_string`: JSON-serialize the headers map.  JSON
serialization of a string-to-string map cannot fail, so the result is
always `ok`. -/
def Mail.make_header_string (m : Mail) : Except SendgridError String :=
  .ok (jsonOfMap m.headers)

/-- Modelled from the spec: the key/value pairs produced by serializing
a `Mail` for transport (`serde_urlencoded::to_string(mail_info)` in
`sg_client.rs`).  The serialization code itself is not under src/ (the
plain derive alone cannot rename `to` to `to[]` or `x_smtpapi` to
`x-smtpapi`); the behaviour is fixed by spec section 4.2 and pinned by
the repository test `basic_message_body`: array fields become repeated
`name[]` keys in insertion order, absent optional fields become empty
string values, the headers map becomes the JSON-object value of a single
`headers` key, and the scalar keys appear in the order of the test
(`from`, `subject`, `html`, `text`, `fromname`, `replyto`, `date`,
`headers`, `x-smtpapi`).  The test pins `attachments` and `content` only
in the empty case, where they contribute no pair.  The test also pins
the value of the `fromname` key as the empty string even though the
`fromname` field of the test message is `Example sender`, so the
serializer is modelled as emitting an empty `fromname`. -/
def scalarPairs (m : Mail) : List (String × String) :=
  [("from", m.«from»),
   ("subject", m.subject),
   ("html", m.html.getD ""),
   ("text", m.text.getD ""),
   ("fromname", ""),
   ("replyto", m.replyto.getD ""),
   ("date", m.date.getD ""),
   ("headers", jsonOfMap m.headers),
   ("x-smtpapi", m.x_smtpapi.getD "")]

/-- Modelled from the spec: the array-key segments in insertion order
followed by the scalar tail — the full key/value pair list of the
serialized message.  See the comment on `scalarPairs`. -/
def formPairs (m : Mail) : List (String × String) :=
  (m.«to».map (fun a => ("to[]", a)))
  ++ (m.toname.map (fun a => ("toname[]", a)))
  ++ (m.cc.map (fun a => ("cc[]", a)))
  ++ (m.ccname.map (fun a => ("ccname[]", a)))
  ++ (m.bcc.map (fun a => ("bcc[]", a)))
  ++ (m.bccname.map (fun a => ("bccname[]", a)))
  ++ scalarPairs m

/-- Render one key/value pair of the form body. -/
def renderPair (p : String × String) : String :=
  urlencode p.1 ++ "=" ++ urlencode p.2

/-- Render the whole form body, pairs joined by `&`. -/
def renderPairs (ps : List (String × String)) : String :=
  String.intercalate "&" (ps.map renderPair)

/-- The full form-encoded body of a `Mail`. -/
def encodeMail (m : Mail) : String :=
  renderPairs (formPairs m)

/-- An HTTP response as `send` observes it: a status code and the body
text obtained by `read_to_string`. -/
structure HttpResponse where
  status : Nat
  body : String
deriving DecidableEq, Repr

/-- The `SGClient` struct of `sg_client.rs`: only the API key. -/
structure SGClient where
  api_key : String
deriving DecidableEq, Repr

/-- `SGClient::send`, with the two external collaborators explicit: the
form serializer (`serde_urlencoded::to_string`) and the HTTP transport
(the `reqwest` POST together with reading the response body; an `error`
covers both a failed `send()` and a failed `read_to_string`).  Each
failure propagates unchanged via `?`; a successful exchange returns the
response body, never inspecting the status code. -/
def SGClient.send (_c : SGClient)
    (serialize : Mail → Except SendgridError String)
    (transport : String → Except SendgridError HttpResponse)
    (mail_info : Mail) : Except SendgridError String :=
  match serialize mail_info with
  | .error e => .error e
  | .ok post_body =>
    match transport post_body with
    | .error e => .error e
    | .ok res => .ok res.body

/-- The message of the repository test `basic_message_body`. -/
def basicTestMail : Mail :=
  (Mail.new { address := "test@example.com", name := "Testy mcTestFace" }
    "Test"
    { address := "me@example.com", name := "Example sender" }).add_text "It works"

/-- Model validation: the modelled encoder reproduces, character for
character, the body that the repository test `basic_message_body`
asserts. -/
theorem encodeMail_matches_repo_test :
    encodeMail basicTestMail =
      "to%5B%5D=test%40example.com&toname%5B%5D=Testy+mcTestFace&from=me%40example.com&subject=Test&html=&text=It+works&fromname=&replyto=&date=&headers=%7B%7D&x-smtpapi=" := by
  decide

/-- The concrete message of claim C1: `create` with to `(a@x.com, A)`,
subject `Test`, from `(b@x.com, B)`, then `set_text "It works"`. -/
def c1mail : Mail :=
  (Mail.new { address := "a@x.com", name := "A" } "Test"
    { address := "b@x.com", name := "B" }).add_text "It works"

/-- The body that claim C1 asserts to be the entire encoding. -/
def c1Claimed : String :=
  "to%5B%5D=a%40x.com&toname%5B%5D=A&from=b%40x.com&subject=Test&html=&text=It+works&fromname=&replyto=&date=&headers=%7B%7D"

/-- Claim C1, counterexample: the encoding of the C1 message is not
exactly the claimed body — the serializer appends one further key,
`x-smtpapi=`, as the repository test `basic_message_body` pins. -/
theorem c1_exact_body_counterexample : encodeMail c1mail ≠ c1Claimed := by
  decide

/-- Claim C1 as amended: the encoding of the C1 message is the claimed
body followed by the additional final key `x-smtpapi` with an empty
value, in exactly the claimed key order and with no other keys. -/
theorem c1_exact_body_amended : encodeMail c1mail = c1Claimed ++ "&x-smtpapi=" := by
  decide

/-- Claim C3: `build` hits the fatal assertion exactly when neither
`html` nor `text` is set; when at least one is set it completes and
returns the message unchanged. -/
theorem c3_build_assertion_iff (m : Mail) :
    (m.build = none ↔ (m.html = none ∧ m.text = none))
    ∧ ((m.html ≠ none ∨ m.text ≠ none) → m.build = some m) := by
  rcases hh : m.html with _ | v <;> rcases ht : m.text with _ | w <;>
    simp [Mail.build, hh, ht]

/-- Witness for C3: a concrete message with `text` set passes `build`
unchanged. -/
theorem c3_build_assertion_iff_witness :
    (basicTestMail.html ≠ none ∨ basicTestMail.text ≠ none)
    ∧ basicTestMail.build = some basicTestMail :=
  ⟨Or.inr (by decide), (c3_build_assertion_iff basicTestMail).2 (Or.inr (by decide))⟩

/-- The failing input for claim C4: a message with both `html` and
`text` set. -/
def c4BothBodies : Mail :=
  ((Mail.new { address := "a@x.com", name := "A" } "Test"
    { address := "b@x.com", name := "B" }).add_html "<h1>hi</h1>").add_text "hi"

/-- Claim C4, evaluated at the failing input: `build` accepts a message
with BOTH `html` and `text` set, because the source asserts
`text.is_some() || html.is_some()` even though the assertion message
itself reads `Need exactly one of text or html set`. -/
theorem c4_build_accepts_both_bodies :
    c4BothBodies.html = some "<h1>hi</h1>" ∧ c4BothBodies.text = some "hi"
    ∧ c4BothBodies.build = some c4BothBodies := by
  decide

/-- Claim C7: `add_html` sets only `html` (in particular `text` is kept,
not cleared) and `add_text` sets only `text` (keeping `html`); every
other field is unchanged by either setter. -/
theorem c7_body_setters_frame (m : Mail) (s : String) :
    ((m.add_html s).html = some s
      ∧ (m.add_html s).text = m.text
      ∧ (m.add_html s).«to» = m.«to» ∧ (m.add_html s).toname = m.toname
      ∧ (m.add_html s).cc = m.cc ∧ (m.add_html s).ccname = m.ccname
      ∧ (m.add_html s).bcc = m.bcc ∧ (m.add_html s).bccname = m.bccname
      ∧ (m.add_html s).«from» = m.«from» ∧ (m.add_html s).fromname = m.fromname
      ∧ (m.add_html s).subject = m.subject
      ∧ (m.add_html s).replyto = m.replyto ∧ (m.add_html s).date = m.date
      ∧ (m.add_html s).attachments = m.attachments
      ∧ (m.add_html s).content = m.content ∧ (m.add_html s).headers = m.headers
      ∧ (m.add_html s).x_smtpapi = m.x_smtpapi)
    ∧ ((m.add_text s).text = some s
      ∧ (m.add_text s).html = m.html
      ∧ (m.add_text s).«to» = m.«to» ∧ (m.add_text s).toname = m.toname
      ∧ (m.add_text s).cc = m.cc ∧ (m.add_text s).ccname = m.ccname
      ∧ (m.add_text s).bcc = m.bcc ∧ (m.add_text s).bccname = m.bccname
      ∧ (m.add_text s).«from» = m.«from» ∧ (m.add_text s).fromname = m.fromname
      ∧ (m.add_text s).subject = m.subject
      ∧ (m.add_text s).replyto = m.replyto ∧ (m.add_text s).date = m.date
      ∧ (m.add_text s).attachments = m.attachments
      ∧ (m.add_text s).content = m.content ∧ (m.add_text s).headers = m.headers
      ∧ (m.add_text s).x_smtpapi = m.x_smtpapi) :=
  ⟨⟨rfl, rfl, rfl, rfl, rfl, rfl, rfl, rfl, rfl, rfl, rfl, rfl, rfl, rfl, rfl, rfl, rfl⟩,
   ⟨rfl, rfl, rfl, rfl, rfl, rfl, rfl, rfl, rfl, rfl, rfl, rfl, rfl, rfl, rfl, rfl, rfl⟩⟩

/-- Filtering a constant-key segment for its own key keeps the whole
segment. -/
theorem filter_key_map_self (k : String) (l : List String) :
    (l.map (fun a => (k, a))).filter (fun p => p.1 == k) = l.map (fun a => (k, a)) := by
  induction l with
  | nil => rfl
  | cons a l ih => simp [List.filter_cons, ih]

/-- Filtering a constant-key segment for a different key drops it. -/
theorem filter_key_map_ne (k k2 : String) (h : (k2 == k) = false) (l : List String) :
    (l.map (fun a => (k2, a))).filter (fun p => p.1 == k) = [] := by
  induction l with
  | nil => rfl
  | cons a l ih => simp [List.filter_cons, h, ih]

/-- The scalar tail holds no `to[]` key. -/
theorem scalarPairs_filter_toKey (m : Mail) :
    (scalarPairs m).filter (fun p => p.1 == "to[]") = [] := rfl

/-- The scalar tail holds no `toname[]` key. -/
theorem scalarPairs_filter_tonameKey (m : Mail) :
    (scalarPairs m).filter (fun p => p.1 == "toname[]") = [] := rfl

/-- The scalar tail holds no `cc[]` key. -/
theorem scalarPairs_filter_ccKey (m : Mail) :
    (scalarPairs m).filter (fun p => p.1 == "cc[]") = [] := rfl

/-- The scalar tail holds no `ccname[]` key. -/
theorem scalarPairs_filter_ccnameKey (m : Mail) :
    (scalarPairs m).filter (fun p => p.1 == "ccname[]") = [] := rfl

/-- The scalar tail holds no `bcc[]` key. -/
theorem scalarPairs_filter_bccKey (m : Mail) :
    (scalarPairs m).filter (fun p => p.1 == "bcc[]") = [] := rfl

/-- The scalar tail holds no `bccname[]` key. -/
theorem scalarPairs_filter_bccnameKey (m : Mail) :
    (scalarPairs m).filter (fun p => p.1 == "bccname[]") = [] := rfl

/-- The scalar tail holds exactly one `headers` entry: the JSON object
of the headers map. -/
theorem scalarPairs_filter_headersKey (m : Mail) :
    (scalarPairs m).filter (fun p => p.1 == "headers") = [("headers", jsonOfMap m.headers)] := rfl

/-- The `to[]` entries of the encoded pair list are exactly the `to`
vector, in order. -/
theorem formPairs_filter_toKey (m : Mail) :
    (formPairs m).filter (fun p => p.1 == "to[]") = m.«to».map (fun a => ("to[]", a)) := by
  simp only [formPairs, List.filter_append, filter_key_map_self,
    filter_key_map_ne "to[]" "toname[]" rfl, filter_key_map_ne "to[]" "cc[]" rfl,
    filter_key_map_ne "to[]" "ccname[]" rfl, filter_key_map_ne "to[]" "bcc[]" rfl,
    filter_key_map_ne "to[]" "bccname[]" rfl,
    scalarPairs_filter_toKey, List.append_nil, List.nil_append]

/-- The `toname[]` entries of the encoded pair list are exactly the
`toname` vector, in order. -/
theorem formPairs_filter_tonameKey (m : Mail) :
    (formPairs m).filter (fun p => p.1 == "toname[]") = m.toname.map (fun a => ("toname[]", a)) := by
  simp only [formPairs, List.filter_append, filter_key_map_self,
    filter_key_map_ne "toname[]" "to[]" rfl, filter_key_map_ne "toname[]" "cc[]" rfl,
    filter_key_map_ne "toname[]" "ccname[]" rfl, filter_key_map_ne "toname[]" "bcc[]" rfl,
    filter_key_map_ne "toname[]" "bccname[]" rfl,
    scalarPairs_filter_tonameKey, List.append_nil, List.nil_append]

/-- The `cc[]` entries of the encoded pair list are exactly the `cc`
vector, in order. -/
theorem formPairs_filter_ccKey (m : Mail) :
    (formPairs m).filter (fun p => p.1 == "cc[]") = m.cc.map (fun a => ("cc[]", a)) := by
  simp only [formPairs, List.filter_append, filter_key_map_self,
    filter_key_map_ne "cc[]" "to[]" rfl, filter_key_map_ne "cc[]" "toname[]" rfl,
    filter_key_map_ne "cc[]" "ccname[]" rfl, filter_key_map_ne "cc[]" "bcc[]" rfl,
    filter_key_map_ne "cc[]" "bccname[]" rfl,
    scalarPairs_filter_ccKey, List.append_nil, List.nil_append]

/-- The `ccname[]` entries of the encoded pair list are exactly the
`ccname` vector, in order. -/
theorem formPairs_filter_ccnameKey (m : Mail) :
    (formPairs m).filter (fun p => p.1 == "ccname[]") = m.ccname.map (fun a => ("ccname[]", a)) := by
  simp only [formPairs, List.filter_append, filter_key_map_self,
    filter_key_map_ne "ccname[]" "to[]" rfl, filter_key_map_ne "ccname[]" "toname[]" rfl,
    filter_key_map_ne "ccname[]" "cc[]" rfl, filter_key_map_ne "ccname[]" "bcc[]" rfl,
    filter_key_map_ne "ccname[]" "bccname[]" rfl,
    scalarPairs_filter_ccnameKey, List.append_nil, List.nil_append]

/-- The `bcc[]` entries of the encoded pair list are exactly the `bcc`
vector, in order. -/
theorem formPairs_filter_bccKey (m : Mail) :
    (formPairs m).filter (fun p => p.1 == "bcc[]") = m.bcc.map (fun a => ("bcc[]", a)) := by
  simp only [formPairs, List.filter_append, filter_key_map_self,
    filter_key_map_ne "bcc[]" "to[]" rfl, filter_key_map_ne "bcc[]" "toname[]" rfl,
    filter_key_map_ne "bcc[]" "cc[]" rfl, filter_key_map_ne "bcc[]" "ccname[]" rfl,
    filter_key_map_ne "bcc[]" "bccname[]" rfl,
    scalarPairs_filter_bccKey, List.append_nil, List.nil_append]

/-- The `bccname[]` entries of the encoded pair list are exactly the
`bccname` vector, in order. -/
theorem formPairs_filter_bccnameKey (m : Mail) :
    (formPairs m).filter (fun p => p.1 == "bccname[]") = m.bccname.map (fun a => ("bccname[]", a)) := by
  simp only [formPairs, List.filter_append, filter_key_map_self,
    filter_key_map_ne "bccname[]" "to[]" rfl, filter_key_map_ne "bccname[]" "toname[]" rfl,
    filter_key_map_ne "bccname[]" "cc[]" rfl, filter_key_map_ne "bccname[]" "ccname[]" rfl,
    filter_key_map_ne "bccname[]" "bcc[]" rfl,
    scalarPairs_filter_bccnameKey, List.append_nil, List.nil_append]

/-- The encoded pair list holds exactly one `headers` entry, whose value
is the JSON object string of the headers map. -/
theorem formPairs_filter_headersKey (m : Mail) :
    (formPairs m).filter (fun p => p.1 == "headers") = [("headers", jsonOfMap m.headers)] := by
  simp only [formPairs, List.filter_append,
    filter_key_map_ne "headers" "to[]" rfl, filter_key_map_ne "headers" "toname[]" rfl,
    filter_key_map_ne "headers" "cc[]" rfl, filter_key_map_ne "headers" "ccname[]" rfl,
    filter_key_map_ne "headers" "bcc[]" rfl, filter_key_map_ne "headers" "bccname[]" rfl,
    scalarPairs_filter_headersKey, List.append_nil, List.nil_append]

/-- Claim C2: an absent optional field (`html`, `text`, `replyto`,
`date`, `x_smtpapi`) still encodes as its key with an empty-string
value, and every declared scalar key is present in the encoded body of
every message. -/
theorem c2_absent_optionals_encode_empty (m : Mail) :
    (m.html = none → ("html", "") ∈ formPairs m)
    ∧ (m.text = none → ("text", "") ∈ formPairs m)
    ∧ (m.replyto = none → ("replyto", "") ∈ formPairs m)
    ∧ (m.date = none → ("date", "") ∈ formPairs m)
    ∧ (m.x_smtpapi = none → ("x-smtpapi", "") ∈ formPairs m)
    ∧ (∀ k, k ∈ (["from", "subject", "html", "text", "fromname",
          "replyto", "date", "headers", "x-smtpapi"] : List String) →
        ∃ v, (k, v) ∈ formPairs m) := by
  refine ⟨?_, ?_, ?_, ?_, ?_, ?_⟩
  · intro h; simp [formPairs, scalarPairs, h]
  · intro h; simp [formPairs, scalarPairs, h]
  · intro h; simp [formPairs, scalarPairs, h]
  · intro h; simp [formPairs, scalarPairs, h]
  · intro h; simp [formPairs, scalarPairs, h]
  · intro k hk
    fin_cases hk
    · exact ⟨m.«from», by simp [formPairs, scalarPairs]⟩
    · exact ⟨m.subject, by simp [formPairs, scalarPairs]⟩
    · exact ⟨m.html.getD "", by simp [formPairs, scalarPairs]⟩
    · exact ⟨m.text.getD "", by simp [formPairs, scalarPairs]⟩
    · exact ⟨"", by simp [formPairs, scalarPairs]⟩
    · exact ⟨m.replyto.getD "", by simp [formPairs, scalarPairs]⟩
    · exact ⟨m.date.getD "", by simp [formPairs, scalarPairs]⟩
    · exact ⟨jsonOfMap m.headers, by simp [formPairs, scalarPairs]⟩
    · exact ⟨m.x_smtpapi.getD "", by simp [formPairs, scalarPairs]⟩

/-- Witness for C2 at a concrete message with `html` absent. -/
theorem c2_absent_optionals_encode_empty_witness :
    basicTestMail.html = none ∧ ("html", "") ∈ formPairs basicTestMail
    ∧ ("headers" : String) ∈ (["from", "subject", "html", "text", "fromname",
        "replyto", "date", "headers", "x-smtpapi"] : List String)
    ∧ ∃ v, ("headers", v) ∈ formPairs basicTestMail :=
  ⟨rfl, (c2_absent_optionals_encode_empty basicTestMail).1 rfl, by decide,
    (c2_absent_optionals_encode_empty basicTestMail).2.2.2.2.2 "headers" (by decide)⟩

/-- Claim C8: the headers map is serialized to a JSON object string that
is the value of the single `headers` key of the encoded output;
concretely a headers map holding `X-Test ↦ 1` renders as
`headers=%7B%22X-Test%22%3A%221%22%7D`. -/
theorem c8_headers_single_json_key (m : Mail) :
    m.make_header_string = .ok (jsonOfMap m.headers)
    ∧ (formPairs m).filter (fun p => p.1 == "headers") = [("headers", jsonOfMap m.headers)]
    ∧ ("headers", jsonOfMap m.headers) ∈ formPairs m
    ∧ renderPair ("headers", jsonOfMap ((basicTestMail.add_header "X-Test" "1").headers))
        = "headers=%7B%22X-Test%22%3A%221%22%7D" := by
  refine ⟨rfl, formPairs_filter_headersKey m, ?_, by decide⟩
  simp [formPairs, scalarPairs]

/-- Claim C5: `add_attachment` returns `IoError` when the file read
fails, `InvalidFilename` when the read succeeds but the path is not
valid UTF-8, and on success stores the content under the string
representation of the path. -/
theorem c5_add_attachment_cases (m : Mail)
    (fs : SysPath → Except String String) (p : SysPath) :
    (∀ e, fs p = .error e → m.add_attachment fs p = .error (.io e))
    ∧ (∀ d, fs p = .ok d → p.toStr = none →
        m.add_attachment fs p = .error .invalidFilename)
    ∧ (∀ d name, fs p = .ok d → p.toStr = some name →
        m.add_attachment fs p
          = .ok { m with attachments := insertMap m.attachments name d }) := by
  refine ⟨?_, ?_, ?_⟩
  · intro e h; simp [Mail.add_attachment, h]
  · intro d h h2; simp [Mail.add_attachment, h, h2]
  · intro d name h h2; simp [Mail.add_attachment, h, h2]

/-- Witness for C5: all three branches at concrete inputs — an
unreadable file, a readable file behind a non-UTF-8 path, and a
readable file behind a UTF-8 path. -/
theorem c5_add_attachment_cases_witness :
    ((fun _ : SysPath => (.error "no such file" : Except String String)) ⟨[47], some "/f"⟩
        = .error "no such file"
      ∧ basicTestMail.add_attachment (fun _ => .error "no such file") ⟨[47], some "/f"⟩
        = .error (.io "no such file"))
    ∧ ((⟨[255], none⟩ : SysPath).toStr = none
      ∧ basicTestMail.add_attachment (fun _ => .ok "data") ⟨[255], none⟩
        = .error .invalidFilename)
    ∧ ((⟨[47], some "/f"⟩ : SysPath).toStr = some "/f"
      ∧ basicTestMail.add_attachment (fun _ => .ok "data") ⟨[47], some "/f"⟩
        = .ok { basicTestMail with attachments := insertMap basicTestMail.attachments "/f" "data" }) :=
  ⟨⟨rfl, (c5_add_attachment_cases basicTestMail (fun _ => .error "no such file")
      ⟨[47], some "/f"⟩).1 "no such file" rfl⟩,
   ⟨rfl, (c5_add_attachment_cases basicTestMail (fun _ => .ok "data")
      ⟨[255], none⟩).2.1 "data" rfl rfl⟩,
   ⟨rfl, (c5_add_attachment_cases basicTestMail (fun _ => .ok "data")
      ⟨[47], some "/f"⟩).2.2 "data" "/f" rfl rfl⟩⟩

/-- Looking up the key just inserted yields the new value. -/
theorem lookupMap_insertMap_self (l : List (String × String)) (k v : String) :
    lookupMap (insertMap l k v) k = some v := by
  induction l with
  | nil => simp [insertMap, lookupMap]
  | cons p rest ih =>
    obtain ⟨k0, v0⟩ := p
    by_cases h : k0 = k
    · simp [insertMap, lookupMap, h]
    · simp [insertMap, lookupMap, h, ih]

/-- A key that does not occur among the stored keys has count zero. -/
theorem countKey_eq_zero_of_not_mem (k : String) (l : List (String × String))
    (h : k ∉ l.map Prod.fst) : countKey l k = 0 := by
  induction l with
  | nil => rfl
  | cons p rest ih =>
    simp only [List.map_cons, List.mem_cons, not_or] at h
    have h1 : (p.1 == k) = false := by
      simp only [beq_eq_false_iff_ne, ne_eq]
      exact fun e => h.1 (e.symm)
    simp only [countKey, List.filter_cons, h1, cond_false] at ih ⊢
    exact ih h.2

/-- Inserting over an equal head key replaces the head entry. -/
theorem insertMap_cons_eq (k v v0 : String) (rest : List (String × String)) :
    insertMap ((k, v0) :: rest) k v = (k, v) :: rest := by
  simp [insertMap]

/-- Inserting past a different head key keeps the head entry. -/
theorem insertMap_cons_ne (k0 k v v0 : String) (rest : List (String × String))
    (h : k0 ≠ k) :
    insertMap ((k0, v0) :: rest) k v = (k0, v0) :: insertMap rest k v := by
  simp [insertMap, h]

/-- Membership among stored keys after an insert. -/
theorem mem_keys_insertMap (a k v : String) (l : List (String × String)) :
    a ∈ (insertMap l k v).map Prod.fst ↔ (a ∈ l.map Prod.fst ∨ a = k) := by
  induction l with
  | nil => simp [insertMap]
  | cons p rest ih =>
    obtain ⟨k0, v0⟩ := p
    by_cases h : k0 = k
    · subst h
      rw [insertMap_cons_eq]
      simp only [List.map_cons, List.mem_cons]
      tauto
    · rw [insertMap_cons_ne _ _ _ _ _ h]
      simp only [List.map_cons, List.mem_cons, ih]
      tauto

/-- Inserting keeps the stored keys duplicate-free. -/
theorem nodup_keys_insertMap (k v : String) (l : List (String × String))
    (h : (l.map Prod.fst).Nodup) : ((insertMap l k v).map Prod.fst).Nodup := by
  induction l with
  | nil => simp [insertMap]
  | cons p rest ih =>
    obtain ⟨k0, v0⟩ := p
    simp only [List.map_cons, List.nodup_cons] at h
    by_cases hk : k0 = k
    · subst hk
      rw [insertMap_cons_eq]
      simp only [List.map_cons, List.nodup_cons]
      exact h
    · rw [insertMap_cons_ne _ _ _ _ _ hk]
      simp only [List.map_cons, List.nodup_cons]
      refine ⟨?_, ih h.2⟩
      rw [mem_keys_insertMap]
      rintro (hc | hc)
      · exact h.1 hc
      · exact hk hc

/-- On a duplicate-free map, the inserted key is stored exactly once. -/
theorem countKey_insertMap_self (k v : String) (l : List (String × String))
    (h : (l.map Prod.fst).Nodup) : countKey (insertMap l k v) k = 1 := by
  induction l with
  | nil => simp [insertMap, countKey, List.filter_cons]
  | cons p rest ih =>
    obtain ⟨k0, v0⟩ := p
    simp only [List.map_cons, List.nodup_cons] at h
    by_cases hk : k0 = k
    · subst hk
      have hz : countKey rest k0 = 0 := countKey_eq_zero_of_not_mem _ _ h.1
      rw [insertMap_cons_eq]
      simp only [countKey] at hz
      simp [countKey, List.filter_cons, hz]
    · have hb : (k0 == k) = false := by
        simp only [beq_eq_false_iff_ne, ne_eq]
        exact hk
      rw [insertMap_cons_ne _ _ _ _ _ hk]
      simp only [countKey, List.filter_cons, hb, cond_false] at ih ⊢
      exact ih h.2

/-- Claim C10: adding an attachment twice for the same readable, UTF-8
path succeeds and leaves exactly one attachment entry under the path
key, holding the content read by the second call. -/
theorem c10_add_attachment_overwrites (m : Mail)
    (fs1 fs2 : SysPath → Except String String) (p : SysPath)
    (name d1 d2 : String)
    (hn : p.toStr = some name) (h1 : fs1 p = .ok d1) (h2 : fs2 p = .ok d2)
    (hnd : (m.attachments.map Prod.fst).Nodup) :
    ∃ m2 : Mail,
      (m.add_attachment fs1 p).bind (fun m1 => m1.add_attachment fs2 p) = .ok m2
      ∧ lookupMap m2.attachments name = some d2
      ∧ countKey m2.attachments name = 1
      ∧ (m2.attachments.map Prod.fst).Nodup := by
  refine ⟨{ m with attachments := insertMap (insertMap m.attachments name d1) name d2 },
    ?_, ?_, ?_, ?_⟩
  · simp [Mail.add_attachment, h1, h2, hn, Except.bind]
  · exact lookupMap_insertMap_self _ _ _
  · exact countKey_insertMap_self _ _ _ (nodup_keys_insertMap _ _ _ hnd)
  · exact nodup_keys_insertMap _ _ _ (nodup_keys_insertMap _ _ _ hnd)

/-- Witness for C10: both reads succeed on the concrete path `/f`, and
the surviving entry holds the content of the second read. -/
theorem c10_add_attachment_overwrites_witness :
    (⟨[47], some "/f"⟩ : SysPath).toStr = some "/f"
    ∧ (fun _ : SysPath => (.ok "first" : Except String String)) ⟨[47], some "/f"⟩ = .ok "first"
    ∧ (fun _ : SysPath => (.ok "second" : Except String String)) ⟨[47], some "/f"⟩ = .ok "second"
    ∧ (basicTestMail.attachments.map Prod.fst).Nodup
    ∧ ∃ m2 : Mail,
        (basicTestMail.add_attachment (fun _ => .ok "first") ⟨[47], some "/f"⟩).bind
            (fun m1 => m1.add_attachment (fun _ => .ok "second") ⟨[47], some "/f"⟩) = .ok m2
        ∧ lookupMap m2.attachments "/f" = some "second"
        ∧ countKey m2.attachments "/f" = 1
        ∧ (m2.attachments.map Prod.fst).Nodup :=
  ⟨rfl, rfl, rfl, by decide,
    c10_add_attachment_overwrites basicTestMail (fun _ => .ok "first")
      (fun _ => .ok "second") ⟨[47], some "/f"⟩ "/f" "first" "second" rfl rfl rfl (by decide)⟩

/-- One pure builder call of the fluent `Mail` interface (the fallible
`add_attachment` is treated separately). -/
inductive BuilderOp where
  | add_to (d : Destination)
  | add_cc (d : Destination)
  | add_bcc (d : Destination)
  | add_html (s : String)
  | add_text (s : String)
  | add_reply_to (s : String)
  | add_date (s : String)
  | add_content (k v : String)
  | add_header (k v : String)
  | add_x_smtpapi (s : String)
deriving DecidableEq, Repr

/-- Apply one builder call. -/
def applyOp (m : Mail) : BuilderOp → Mail
  | .add_to d => m.add_to d
  | .add_cc d => m.add_cc d
  | .add_bcc d => m.add_bcc d
  | .add_html s => m.add_html s
  | .add_text s => m.add_text s
  | .add_reply_to s => m.add_reply_to s
  | .add_date s => m.add_date s
  | .add_content k v => m.add_content k v
  | .add_header k v => m.add_header k v
  | .add_x_smtpapi s => m.add_x_smtpapi s

/-- Apply a sequence of builder calls left to right (the fluent chain). -/
def applyOps (m : Mail) (ops : List BuilderOp) : Mail :=
  ops.foldl applyOp m

/-- The recipients handed to `add_to` in a call sequence, in order. -/
def toAdds (ops : List BuilderOp) : List Destination :=
  ops.filterMap (fun op => match op with | .add_to d => some d | _ => none)

/-- The recipients handed to `add_cc` in a call sequence, in order. -/
def ccAdds (ops : List BuilderOp) : List Destination :=
  ops.filterMap (fun op => match op with | .add_cc d => some d | _ => none)

/-- The recipients handed to `add_bcc` in a call sequence, in order. -/
def bccAdds (ops : List BuilderOp) : List Destination :=
  ops.filterMap (fun op => match op with | .add_bcc d => some d | _ => none)

/-- Any builder-call sequence extends the six recipient vectors with
exactly the added recipients, addresses and names in lockstep. -/
theorem applyOps_recipient_fields (ops : List BuilderOp) : ∀ m : Mail,
    ((applyOps m ops).«to» = m.«to» ++ (toAdds ops).map Destination.address
      ∧ (applyOps m ops).toname = m.toname ++ (toAdds ops).map Destination.name)
    ∧ ((applyOps m ops).cc = m.cc ++ (ccAdds ops).map Destination.address
      ∧ (applyOps m ops).ccname = m.ccname ++ (ccAdds ops).map Destination.name)
    ∧ ((applyOps m ops).bcc = m.bcc ++ (bccAdds ops).map Destination.address
      ∧ (applyOps m ops).bccname = m.bccname ++ (bccAdds ops).map Destination.name) := by
  induction ops with
  | nil =>
    intro m
    simp [applyOps, toAdds, ccAdds, bccAdds]
  | cons op ops ih =>
    intro m
    have h := ih (applyOp m op)
    have e : applyOps m (op :: ops) = applyOps (applyOp m op) ops := rfl
    rw [e]
    cases op <;>
      simp_all [applyOp, toAdds, ccAdds, bccAdds, List.filterMap_cons,
        Mail.add_to, Mail.add_cc, Mail.add_bcc, Mail.add_html, Mail.add_text,
        Mail.add_reply_to, Mail.add_date, Mail.add_content, Mail.add_header,
        Mail.add_x_smtpapi]

/-- Claim C6: through every sequence of builder calls after `create`,
the three recipient list pairs keep equal length; index i of each
address list is the address of the i-th recipient added to it (the
`create` argument counting first for `to`) and index i of the name list
is that recipient's display name; appends preserve order without
deduplication; and the encoded `name[]` keys list exactly these elements
in the same order and pairing. -/
theorem c6_parallel_recipient_lists (to0 : Destination) (subject : String)
    (from0 : Destination) (ops : List BuilderOp) :
    ((applyOps (Mail.new to0 subject from0) ops).«to».length
        = (applyOps (Mail.new to0 subject from0) ops).toname.length
      ∧ (applyOps (Mail.new to0 subject from0) ops).cc.length
        = (applyOps (Mail.new to0 subject from0) ops).ccname.length
      ∧ (applyOps (Mail.new to0 subject from0) ops).bcc.length
        = (applyOps (Mail.new to0 subject from0) ops).bccname.length)
    ∧ ((applyOps (Mail.new to0 subject from0) ops).«to»
        = to0.address :: (toAdds ops).map Destination.address
      ∧ (applyOps (Mail.new to0 subject from0) ops).toname
        = to0.name :: (toAdds ops).map Destination.name
      ∧ (applyOps (Mail.new to0 subject from0) ops).cc
        = (ccAdds ops).map Destination.address
      ∧ (applyOps (Mail.new to0 subject from0) ops).ccname
        = (ccAdds ops).map Destination.name
      ∧ (applyOps (Mail.new to0 subject from0) ops).bcc
        = (bccAdds ops).map Destination.address
      ∧ (applyOps (Mail.new to0 subject from0) ops).bccname
        = (bccAdds ops).map Destination.name)
    ∧ ((formPairs (applyOps (Mail.new to0 subject from0) ops)).filter
          (fun p => p.1 == "to[]")
        = (applyOps (Mail.new to0 subject from0) ops).«to».map (fun a => ("to[]", a))
      ∧ (formPairs (applyOps (Mail.new to0 subject from0) ops)).filter
          (fun p => p.1 == "toname[]")
        = (applyOps (Mail.new to0 subject from0) ops).toname.map (fun a => ("toname[]", a))
      ∧ (formPairs (applyOps (Mail.new to0 subject from0) ops)).filter
          (fun p => p.1 == "cc[]")
        = (applyOps (Mail.new to0 subject from0) ops).cc.map (fun a => ("cc[]", a))
      ∧ (formPairs (applyOps (Mail.new to0 subject from0) ops)).filter
          (fun p => p.1 == "ccname[]")
        = (applyOps (Mail.new to0 subject from0) ops).ccname.map (fun a => ("ccname[]", a))
      ∧ (formPairs (applyOps (Mail.new to0 subject from0) ops)).filter
          (fun p => p.1 == "bcc[]")
        = (applyOps (Mail.new to0 subject from0) ops).bcc.map (fun a => ("bcc[]", a))
      ∧ (formPairs (applyOps (Mail.new to0 subject from0) ops)).filter
          (fun p => p.1 == "bccname[]")
        = (applyOps (Mail.new to0 subject from0) ops).bccname.map (fun a => ("bccname[]", a))) := by
  obtain ⟨⟨h1, h2⟩, ⟨h3, h4⟩, ⟨h5, h6⟩⟩ :=
    applyOps_recipient_fields ops (Mail.new to0 subject from0)
  refine ⟨⟨?_, ?_, ?_⟩, ⟨?_, ?_, ?_, ?_, ?_, ?_⟩,
    formPairs_filter_toKey _, formPairs_filter_tonameKey _, formPairs_filter_ccKey _,
    formPairs_filter_ccnameKey _, formPairs_filter_bccKey _, formPairs_filter_bccnameKey _⟩
  · rw [h1, h2]; simp [Mail.new]
  · rw [h3, h4]; simp [Mail.new]
  · rw [h5, h6]; simp [Mail.new]
  · rw [h1]; simp [Mail.new]
  · rw [h2]; simp [Mail.new]
  · rw [h3]; simp [Mail.new]
  · rw [h4]; simp [Mail.new]
  · rw [h5]; simp [Mail.new]
  · rw [h6]; simp [Mail.new]

/-- Claim C9: `send` fails exactly when serialization fails or the
transport exchange fails, propagating the underlying error unchanged;
a transport-level success returns the full response body whatever the
status code. -/
theorem c9_send_error_propagation (c : SGClient)
    (serialize : Mail → Except SendgridError String)
    (transport : String → Except SendgridError HttpResponse) (m : Mail) :
    (∀ e, c.send serialize transport m = .error e ↔
      (serialize m = .error e ∨ ∃ b, serialize m = .ok b ∧ transport b = .error e))
    ∧ (∀ b r, serialize m = .ok b → transport b = .ok r →
        c.send serialize transport m = .ok r.body) := by
  constructor
  · intro e
    cases hs : serialize m with
    | error e0 => simp [SGClient.send, hs]
    | ok b =>
      cases ht : transport b with
      | error e0 => simp [SGClient.send, hs, ht]
      | ok r => simp [SGClient.send, hs, ht]
  · intro b r hs ht
    simp [SGClient.send, hs, ht]

/-- Witness for C9: a serializer that succeeds and a transport that
returns HTTP status 500 with body `resp` — `send` still succeeds with
`resp`. -/
theorem c9_send_error_propagation_witness :
    (fun _ : Mail => (.ok "post_body" : Except SendgridError String)) basicTestMail
        = .ok "post_body"
    ∧ (fun _ : String => (.ok ⟨500, "resp"⟩ : Except SendgridError HttpResponse)) "post_body"
        = .ok ⟨500, "resp"⟩
    ∧ SGClient.send ⟨"SG.key"⟩ (fun _ => .ok "post_body")
        (fun _ => .ok ⟨500, "resp"⟩) basicTestMail = .ok "resp" :=
  ⟨rfl, rfl,
    (c9_send_error_propagation ⟨"SG.key"⟩ (fun _ => .ok "post_body")
      (fun _ => .ok ⟨500, "resp"⟩) basicTestMail).2 "post_body" ⟨500, "resp"⟩ rfl rfl⟩
